import Mathlib

/-!
Verification of the OptiBatch image-processor core against its source.

The development shallowly embeds the per-image processing pipeline
(`processFile` in `src/utils/imageUtils.ts`) and the batch controller
(`handleProcessAll` in the application component): machine floats are
modelled as exact rationals, JavaScript `Math.round` as `floor (x + 1/2)`,
the browser codec (image loading, canvas context, `canvas.toBlob`) as an
explicit environment of pure oracles, and React `setFiles` state updates
as explicit list transformations.
-/

/-- Output encodings, from `ImageFormat` in the type declarations. -/
inductive ImageFormat where
  | jpeg
  | png
  | webp
deriving DecidableEq, Repr

/-- Resize policies, from `ResizeMode` in the type declarations. -/
inductive ResizeMode where
  | original
  | percentage
  | fixedWidth
  | fixedHeight
deriving DecidableEq, Repr

/-- Item lifecycle states, from `ProcessStatus` in the type declarations. -/
inductive ProcessStatus where
  | idle
  | processing
  | completed
  | error
deriving DecidableEq, Repr

/-- `ProcessingOptions` from the type declarations.  `quality` is a float in
the source, modelled as an exact rational; `resizeValue` is an integer. -/
structure ProcessingOptions where
  format : ImageFormat
  quality : ℚ
  resizeMode : ResizeMode
  resizeValue : ℤ
  maintainAspectRatio : Bool
deriving DecidableEq

/-- `ImageItem` from the type declarations.  The `File` object is opaque to
the pipeline and is modelled as an abstract token; object URLs are strings.
Optional fields of the source interface become `Option`. -/
structure ImageItem where
  id : String
  file : String
  previewUrl : String
  originalSize : ℤ
  originalWidth : ℤ
  originalHeight : ℤ
  status : ProcessStatus
  processedUrl : Option String
  processedFormat : Option ImageFormat
  processedSize : Option ℤ
  processedWidth : Option ℤ
  processedHeight : Option ℤ
  error : Option String
deriving DecidableEq

/-- A decoded image as exposed by `loadImage`: an `HTMLImageElement`, of
which `processFile` reads exactly `naturalWidth` and `naturalHeight`. -/
structure DecodedImage where
  naturalWidth : ℤ
  naturalHeight : ℤ
deriving DecidableEq

/-- An encoded output blob as produced by `canvas.toBlob`, together with the
object URL `URL.createObjectURL` would mint for it. -/
structure EncodedBlob where
  size : ℤ
  url : String
deriving DecidableEq

/-- The browser codec capability used by `processFile`, as an environment of
pure oracles: `decode url` is the outcome of `loadImage(url)` (`none` on the
`Failed to load image` rejection), `hasContext` whether
`canvas.getContext('2d')` is non-null, and `encode w h format quality` the
outcome of `canvas.toBlob` on a `w × h` canvas (`none` for a null blob). -/
structure CodecEnv where
  decode : String → Option DecodedImage
  hasContext : Bool
  encode : ℤ → ℤ → ImageFormat → ℚ → Option EncodedBlob

/-- JavaScript `Math.round (a / b)` for integer `a` and positive integer `b`:
`Math.round x = floor (x + 1/2)` (round half toward positive infinity), and
`floor (a/b + 1/2) = (2*a + b) / (2*b)` in floor division, which for a
positive divisor is Lean's `/` on `ℤ`. -/
def jsRound (a b : ℤ) : ℤ := (2 * a + b) / (2 * b)

/-- The dimension-resolution step of `processFile`
(`src/utils/imageUtils.ts`, lines 63-83): starting from the decoded image's
`naturalWidth`/`naturalHeight`, each resize mode rewrites the target
dimensions exactly as the source's `if`/`else if` chain does.  All float
arithmetic (`resizeValue / 100`, `naturalHeight / naturalWidth`, ...) is
exact here, so `Math.round(w * (v/100))` becomes `jsRound (w*v) 100` and
`Math.round(v * (h/w))` becomes `jsRound (v*h) w`. -/
def resolveDimensions (w h : ℤ) (o : ProcessingOptions) : ℤ × ℤ :=
  match o.resizeMode with
  | .original => (w, h)
  | .percentage => (jsRound (w * o.resizeValue) 100, jsRound (h * o.resizeValue) 100)
  | .fixedWidth =>
      if o.maintainAspectRatio then (o.resizeValue, jsRound (o.resizeValue * h) w)
      else (o.resizeValue, h)
  | .fixedHeight =>
      if o.maintainAspectRatio then (jsRound (o.resizeValue * w) h, o.resizeValue)
      else (w, o.resizeValue)

/-- The result record returned by `processFile`: on success the fields of
the `status: 'completed'` partial record, on failure the `status: 'error'`
partial record's message. -/
inductive ProcessResult where
  | success (processedUrl : String) (processedFormat : ImageFormat)
      (processedSize : ℤ) (processedWidth : ℤ) (processedHeight : ℤ)
  | failure (message : String)
deriving DecidableEq, Repr

/-- `processFile` from `src/utils/imageUtils.ts`, lines 55-130.  The
`try`/`catch` body is modelled by propagating each of the three throw sites
(failed `loadImage`, null canvas context, null `toBlob` result) to the
`catch` clause, which packages the message as a failure record.  Note the
source checks only `if (!blob)`: a non-null zero-byte blob is accepted. -/
def processFile (env : CodecEnv) (item : ImageItem) (options : ProcessingOptions) :
    ProcessResult :=
  match env.decode item.previewUrl with
  | none => .failure "Failed to load image"
  | some img =>
      let dims := resolveDimensions img.naturalWidth img.naturalHeight options
      if env.hasContext then
        match env.encode dims.1 dims.2 options.format options.quality with
        | none => .failure "Image encoding failed"
        | some blob => .success blob.url options.format blob.size dims.1 dims.2
      else .failure "Could not get canvas context"

/-- The candidate predicate of `handleProcessAll`:
`f.status === 'idle' || f.status === 'error'`. -/
def isCand (f : ImageItem) : Bool :=
  decide (f.status = ProcessStatus.idle ∨ f.status = ProcessStatus.error)

/-- The candidate-selection step of `handleProcessAll` (lines 115-125 of the
application component): filter for `idle`/`error`; if that is empty and the
collection is not, take the whole collection. -/
def selectCandidates (files : List ImageItem) : List ImageItem :=
  if (files.filter isCand).length = 0 ∧ 0 < files.length then files
  else files.filter isCand

/-- The per-element update of the controller's first `setFiles`:
`f.id === item.id ? { ...f, status: 'processing', error: undefined } : f`. -/
def setProcessingItem (itemId : String) (f : ImageItem) : ImageItem :=
  if f.id = itemId then { f with status := .processing, error := none } else f

/-- The controller's first `setFiles` update (line 128): mark the item
`processing` and clear its error field. -/
def setProcessing (files : List ImageItem) (itemId : String) : List ImageItem :=
  files.map (setProcessingItem itemId)

/-- The spread `{ ...f, ...result }` of the controller's merge: a success
record overwrites status, the five processed fields, and `error` (whose key
is present with value `undefined`); a failure record overwrites only status
and `error`, leaving any stale processed fields in place. -/
def mergeItem (f : ImageItem) : ProcessResult → ImageItem
  | .success url fmt size w h =>
      { f with status := .completed, processedUrl := some url,
               processedFormat := some fmt, processedSize := some size,
               processedWidth := some w, processedHeight := some h,
               error := none }
  | .failure msg => { f with status := .error, error := some msg }

/-- `result.processedUrl` of a result record: present on success only. -/
def mergedUrl : ProcessResult → Option String
  | .success url _ _ _ _ => some url
  | .failure _ => none

/-- The URL revoked for an existing entry during the merge:
`f.processedUrl && f.processedUrl !== result.processedUrl`. -/
def staleUrl (result : ProcessResult) (f : ImageItem) : Option String :=
  match f.processedUrl with
  | some u => if mergedUrl result ≠ some u then some u else none
  | none => none

/-- The controller's second `setFiles` update (lines 138-154): if the item's
id is no longer in the collection, drop the result (revoking its object URL,
returned in the second component as the list of released URLs); otherwise
merge the result into the matching entry, revoking any replaced previous
processed URL. -/
def mergeResult (prev : List ImageItem) (itemId : String) (result : ProcessResult) :
    List ImageItem × List String :=
  if prev.any (fun f => decide (f.id = itemId)) then
    (prev.map (fun f => if f.id = itemId then mergeItem f result else f),
     prev.filterMap (fun f => if f.id = itemId then staleUrl result f else none))
  else
    (prev, (mergedUrl result).toList)

/-- One iteration of the controller's loop body for a candidate `item`:
mark it `processing`, run the pipeline, merge the result. -/
def processOneItem (env : CodecEnv) (files : List ImageItem) (item : ImageItem)
    (options : ProcessingOptions) : List ImageItem :=
  (mergeResult (setProcessing files item.id) item.id (processFile env item options)).1

/-- `handleProcessAll` (lines 115-157 of the application component) without
concurrent interference: select the candidates from the initial collection,
then fold the loop body over them in order. -/
def handleProcessAll (env : CodecEnv) (files : List ImageItem)
    (options : ProcessingOptions) : List ImageItem :=
  (selectCandidates files).foldl (fun fs item => processOneItem env fs item options) files

/-- For a positive divisor, the integer form of `jsRound` is exactly
`Math.round` of the exact quotient: `floor (a/b + 1/2)`. -/
lemma jsRound_eq_floor (a b : ℤ) (hb : 0 < b) :
    jsRound a b = ⌊(a : ℚ) / (b : ℚ) + 1 / 2⌋ := by
  have htn : (((2 * b).toNat : ℤ)) = 2 * b := Int.toNat_of_nonneg (by omega)
  have hbq : (b : ℚ) ≠ 0 := by
    exact_mod_cast hb.ne'
  have h2 : (((2 * b).toNat : ℕ) : ℚ) = ((2 * b : ℤ) : ℚ) := by
    exact_mod_cast congrArg (fun z : ℤ => (z : ℚ)) htn
  have h1 : (a : ℚ) / (b : ℚ) + 1 / 2 = ((2 * a + b : ℤ) : ℚ) / (((2 * b).toNat : ℕ) : ℚ) := by
    rw [h2]
    push_cast
    field_simp
    ring
  rw [h1, Rat.floor_intCast_div_natCast]
  unfold jsRound
  rw [htn]

/-- For a positive divisor, the rounded quotient reaches 1 exactly when the
exact quotient reaches one half. -/
lemma one_le_jsRound_iff (a b : ℤ) (hb : 0 < b) : 1 ≤ jsRound a b ↔ b ≤ 2 * a := by
  unfold jsRound
  rw [Int.le_ediv_iff_mul_le (by omega : (0:ℤ) < 2 * b)]
  omega

/-- C1 counterexample: at a 100×100 image with `percentage` mode and
`resizeValue = 0`, the dimension-resolution step of `processFile` yields
(0, 0); no 1-pixel clamp is applied, so both target axes are below 1. -/
theorem percentage_zero_yields_zero_dims :
    resolveDimensions 100 100 ⟨.jpeg, 8/10, .percentage, 0, true⟩ = (0, 0) ∧
    ¬ (1 ≤ (resolveDimensions 100 100 ⟨.jpeg, 8/10, .percentage, 0, true⟩).1 ∧
       1 ≤ (resolveDimensions 100 100 ⟨.jpeg, 8/10, .percentage, 0, true⟩).2) := by
  decide

/-- C1 (amended): the dimension-resolution step of `processFile` applies no
minimum clamp.  For W, H ≥ 1: `original` mode always yields dimensions ≥ 1;
`percentage` mode yields both dimensions ≥ 1 exactly when `W*v ≥ 50` and
`H*v ≥ 50`; the fixed modes copy `resizeValue` verbatim onto the fixed axis,
so a non-positive `resizeValue` yields a non-positive dimension. -/
theorem resolveDimensions_clamp_free (w h : ℤ) (o : ProcessingOptions)
    (hw : 0 < w) (hh : 0 < h) :
    (o.resizeMode = .original →
        1 ≤ (resolveDimensions w h o).1 ∧ 1 ≤ (resolveDimensions w h o).2) ∧
    (o.resizeMode = .percentage →
        ((1 ≤ (resolveDimensions w h o).1 ∧ 1 ≤ (resolveDimensions w h o).2) ↔
          (50 ≤ w * o.resizeValue ∧ 50 ≤ h * o.resizeValue))) ∧
    (o.resizeMode = .fixedWidth → (resolveDimensions w h o).1 = o.resizeValue) ∧
    (o.resizeMode = .fixedHeight → (resolveDimensions w h o).2 = o.resizeValue) := by
  refine ⟨fun hm => ?_, fun hm => ?_, fun hm => ?_, fun hm => ?_⟩
  · simp only [resolveDimensions, hm]
    exact ⟨hw, hh⟩
  · simp only [resolveDimensions, hm]
    rw [one_le_jsRound_iff _ 100 (by norm_num), one_le_jsRound_iff _ 100 (by norm_num)]
    omega
  · simp only [resolveDimensions, hm]
    cases hA : o.maintainAspectRatio <;> simp
  · simp only [resolveDimensions, hm]
    cases hA : o.maintainAspectRatio <;> simp

/-- Witness for C1 (amended) at W = H = 100 and 30% percentage mode. -/
theorem resolveDimensions_clamp_free_witness :
    (0:ℤ) < 100 ∧ (0:ℤ) < 100 ∧
    (((⟨.jpeg, 8/10, .percentage, 30, true⟩ : ProcessingOptions).resizeMode = .original →
        1 ≤ (resolveDimensions 100 100 ⟨.jpeg, 8/10, .percentage, 30, true⟩).1 ∧
        1 ≤ (resolveDimensions 100 100 ⟨.jpeg, 8/10, .percentage, 30, true⟩).2) ∧
     ((⟨.jpeg, 8/10, .percentage, 30, true⟩ : ProcessingOptions).resizeMode = .percentage →
        ((1 ≤ (resolveDimensions 100 100 ⟨.jpeg, 8/10, .percentage, 30, true⟩).1 ∧
          1 ≤ (resolveDimensions 100 100 ⟨.jpeg, 8/10, .percentage, 30, true⟩).2) ↔
          (50 ≤ 100 * (30:ℤ) ∧ 50 ≤ 100 * (30:ℤ)))) ∧
     ((⟨.jpeg, 8/10, .percentage, 30, true⟩ : ProcessingOptions).resizeMode = .fixedWidth →
        (resolveDimensions 100 100 ⟨.jpeg, 8/10, .percentage, 30, true⟩).1 = 30) ∧
     ((⟨.jpeg, 8/10, .percentage, 30, true⟩ : ProcessingOptions).resizeMode = .fixedHeight →
        (resolveDimensions 100 100 ⟨.jpeg, 8/10, .percentage, 30, true⟩).2 = 30)) :=
  ⟨by decide, by decide,
    resolveDimensions_clamp_free 100 100 ⟨.jpeg, 8/10, .percentage, 30, true⟩
      (by decide) (by decide)⟩

/-- C6: under `percentage` mode the dimension-resolution step of
`processFile` scales both axes by the same exact factor,
`round(W*v/100)` and `round(H*v/100)`, and the outcome does not depend on
`maintainAspectRatio`. -/
theorem percentage_scales_both_axes (w h : ℤ) (o : ProcessingOptions)
    (hw : 0 < w) (hh : 0 < h) (hm : o.resizeMode = .percentage) :
    resolveDimensions w h o =
      (⌊((w * o.resizeValue : ℤ) : ℚ) / 100 + 1 / 2⌋,
       ⌊((h * o.resizeValue : ℤ) : ℚ) / 100 + 1 / 2⌋) ∧
    ∀ b : Bool,
      resolveDimensions w h { o with maintainAspectRatio := b } =
        resolveDimensions w h o := by
  constructor
  · simp only [resolveDimensions, hm]
    rw [jsRound_eq_floor _ 100 (by norm_num), jsRound_eq_floor _ 100 (by norm_num)]
    norm_num
  · intro b
    simp [resolveDimensions, hm]

/-- Witness for C6 at a 10×7 image scaled to 50%. -/
theorem percentage_scales_both_axes_witness :
    (0:ℤ) < 10 ∧ (0:ℤ) < 7 ∧
    (resolveDimensions 10 7 ⟨.jpeg, 1, .percentage, 50, false⟩ =
        (⌊((10 * (50:ℤ) : ℤ) : ℚ) / 100 + 1 / 2⌋, ⌊((7 * (50:ℤ) : ℤ) : ℚ) / 100 + 1 / 2⌋) ∧
      ∀ b : Bool,
        resolveDimensions 10 7
            { (⟨.jpeg, 1, .percentage, 50, false⟩ : ProcessingOptions) with
                maintainAspectRatio := b } =
          resolveDimensions 10 7 ⟨.jpeg, 1, .percentage, 50, false⟩) :=
  ⟨by decide, by decide,
    percentage_scales_both_axes 10 7 ⟨.jpeg, 1, .percentage, 50, false⟩
      (by decide) (by decide) rfl⟩

/-- C7: under `fixed-width` mode the dimension-resolution step of
`processFile` copies `resizeValue` to the width; with aspect-ratio
maintenance the height becomes `round(v*H/W)`, and without it the height is
exactly the natural height H. -/
theorem fixedWidth_resolution (w h : ℤ) (o : ProcessingOptions)
    (hw : 0 < w) (hh : 0 < h) (hm : o.resizeMode = .fixedWidth) :
    (resolveDimensions w h o).1 = o.resizeValue ∧
    (o.maintainAspectRatio = true →
      (resolveDimensions w h o).2 = ⌊((o.resizeValue * h : ℤ) : ℚ) / (w : ℚ) + 1 / 2⌋) ∧
    (o.maintainAspectRatio = false → (resolveDimensions w h o).2 = h) := by
  refine ⟨?_, fun hA => ?_, fun hA => ?_⟩
  · simp only [resolveDimensions, hm]
    cases hA : o.maintainAspectRatio <;> simp
  · simp only [resolveDimensions, hm, hA]
    rw [jsRound_eq_floor _ w hw]
    norm_num
  · simp only [resolveDimensions, hm, hA]
    simp

/-- Witness for C7 at the spec's 1000×500 example resized to width 500. -/
theorem fixedWidth_resolution_witness :
    (0:ℤ) < 1000 ∧ (0:ℤ) < 500 ∧
    ((resolveDimensions 1000 500 ⟨.webp, 8/10, .fixedWidth, 500, true⟩).1 = 500 ∧
     ((⟨.webp, 8/10, .fixedWidth, 500, true⟩ : ProcessingOptions).maintainAspectRatio = true →
       (resolveDimensions 1000 500 ⟨.webp, 8/10, .fixedWidth, 500, true⟩).2 =
         ⌊((500 * (500:ℤ) : ℤ) : ℚ) / (1000 : ℚ) + 1 / 2⌋) ∧
     ((⟨.webp, 8/10, .fixedWidth, 500, true⟩ : ProcessingOptions).maintainAspectRatio = false →
       (resolveDimensions 1000 500 ⟨.webp, 8/10, .fixedWidth, 500, true⟩).2 = 500)) :=
  ⟨by decide, by decide,
    fixedWidth_resolution 1000 500 ⟨.webp, 8/10, .fixedWidth, 500, true⟩
      (by decide) (by decide) rfl⟩

lemma mem_of_getElem?_eq_some {α : Type} {l : List α} {n : ℕ} {a : α} (h : l[n]? = some a) :
    a ∈ l := by
  obtain ⟨hlt, rfl⟩ := List.getElem?_eq_some.mp h
  exact List.getElem_mem hlt

lemma setProcessingItem_id (itemId : String) (f : ImageItem) :
    (setProcessingItem itemId f).id = f.id := by
  unfold setProcessingItem
  split <;> rfl

lemma mergeItem_id (f : ImageItem) (r : ProcessResult) : (mergeItem f r).id = f.id := by
  cases r <;> rfl

lemma processOneItem_getElem?_other (env : CodecEnv) (fs : List ImageItem)
    (item : ImageItem) (options : ProcessingOptions) (k : ℕ) (f : ImageItem)
    (hk : fs[k]? = some f) (hne : f.id ≠ item.id) :
    (processOneItem env fs item options)[k]? = some f := by
  have hset : (setProcessing fs item.id)[k]? = some f := by
    rw [setProcessing, List.getElem?_map, hk]
    simp [setProcessingItem, hne]
  unfold processOneItem mergeResult
  split
  · simp only [List.getElem?_map, hset]
    simp [hne]
  · exact hset

lemma processOneItem_mem_other (env : CodecEnv) (fs : List ImageItem)
    (item : ImageItem) (options : ProcessingOptions) (f : ImageItem)
    (hf : f ∈ fs) (hne : f.id ≠ item.id) :
    f ∈ processOneItem env fs item options := by
  obtain ⟨k, hk⟩ := List.getElem?_of_mem hf
  exact mem_of_getElem?_eq_some (processOneItem_getElem?_other env fs item options k f hk hne)

lemma processOneItem_id_present (env : CodecEnv) (fs : List ImageItem)
    (item : ImageItem) (options : ProcessingOptions) (i : String)
    (h : ∃ g ∈ fs, g.id = i) : ∃ g ∈ processOneItem env fs item options, g.id = i := by
  obtain ⟨g, hg, hid⟩ := h
  have h1 : setProcessingItem item.id g ∈ setProcessing fs item.id :=
    List.mem_map_of_mem _ hg
  have hid1 : (setProcessingItem item.id g).id = i := by
    rw [setProcessingItem_id]
    exact hid
  unfold processOneItem mergeResult
  split
  · refine ⟨_, List.mem_map_of_mem _ h1, ?_⟩
    split
    · rw [mergeItem_id]
      exact hid1
    · exact hid1
  · exact ⟨_, h1, hid1⟩

lemma processOneItem_target_terminal (env : CodecEnv) (fs : List ImageItem)
    (item : ImageItem) (options : ProcessingOptions)
    (h : ∃ g ∈ fs, g.id = item.id) :
    ∃ f ∈ processOneItem env fs item options,
      f.id = item.id ∧ (f.status = .completed ∨ f.status = .error) := by
  obtain ⟨g, hg, hid⟩ := h
  have h1 : setProcessingItem item.id g ∈ setProcessing fs item.id :=
    List.mem_map_of_mem _ hg
  have hid1 : (setProcessingItem item.id g).id = item.id := by
    rw [setProcessingItem_id]
    exact hid
  have hany : (setProcessing fs item.id).any (fun f => decide (f.id = item.id)) = true := by
    rw [List.any_eq_true]
    exact ⟨_, h1, by simp [hid1]⟩
  unfold processOneItem mergeResult
  rw [hany]
  simp only [if_true]
  refine ⟨_, List.mem_map_of_mem _ h1, ?_⟩
  rw [if_pos hid1]
  refine ⟨by rw [mergeItem_id]; exact hid1, ?_⟩
  cases processFile env item options <;> simp [mergeItem]

lemma foldl_getElem?_other (env : CodecEnv) (options : ProcessingOptions) :
    ∀ (cands fs : List ImageItem) (k : ℕ) (f : ImageItem),
      fs[k]? = some f → (∀ d ∈ cands, f.id ≠ d.id) →
      (List.foldl (fun a i => processOneItem env a i options) fs cands)[k]? = some f := by
  intro cands
  induction cands with
  | nil =>
      intro fs k f hk _
      simpa using hk
  | cons c rest ih =>
      intro fs k f hk hne
      rw [List.foldl_cons]
      exact ih _ k f
        (processOneItem_getElem?_other env fs c options k f hk (hne c (by simp)))
        (fun d hd => hne d (by simp [hd]))

lemma foldl_mem_other (env : CodecEnv) (options : ProcessingOptions) :
    ∀ (cands fs : List ImageItem) (f : ImageItem),
      f ∈ fs → (∀ d ∈ cands, f.id ≠ d.id) →
      f ∈ List.foldl (fun a i => processOneItem env a i options) fs cands := by
  intro cands
  induction cands with
  | nil =>
      intro fs f hf _
      simpa using hf
  | cons c rest ih =>
      intro fs f hf hne
      rw [List.foldl_cons]
      exact ih _ f (processOneItem_mem_other env fs c options f hf (hne c (by simp)))
        (fun d hd => hne d (by simp [hd]))

lemma foldl_candidates_terminal (env : CodecEnv) (options : ProcessingOptions) :
    ∀ (cands fs : List ImageItem),
      (cands.map ImageItem.id).Nodup →
      (∀ c ∈ cands, ∃ g ∈ fs, g.id = c.id) →
      ∀ c ∈ cands,
        ∃ f ∈ List.foldl (fun a i => processOneItem env a i options) fs cands,
          f.id = c.id ∧ (f.status = .completed ∨ f.status = .error) := by
  intro cands
  induction cands with
  | nil =>
      intro fs _ _ c hc
      cases hc
  | cons c0 rest ih =>
      intro fs hnd hpres c hc
      rw [List.map_cons, List.nodup_cons] at hnd
      rw [List.foldl_cons]
      rcases List.mem_cons.mp hc with rfl | hcr
      · obtain ⟨f, hfmem, hfid, hfst⟩ :=
          processOneItem_target_terminal env fs c options (hpres c (by simp))
        refine ⟨f, ?_, hfid, hfst⟩
        apply foldl_mem_other env options rest _ f hfmem
        intro d hd hEq
        exact hnd.1 (by rw [← hfid, hEq]; exact List.mem_map_of_mem _ hd)
      · exact ih _ hnd.2
          (fun c' hc' => processOneItem_id_present env fs c0 options c'.id
            (hpres c' (by simp [hc'])))
          c hcr

lemma selectCandidates_subset (files : List ImageItem) :
    ∀ c ∈ selectCandidates files, c ∈ files := by
  intro c hc
  unfold selectCandidates at hc
  split at hc
  · exact hc
  · exact List.mem_of_mem_filter hc

lemma selectCandidates_ids_nodup (files : List ImageItem)
    (hnd : (files.map ImageItem.id).Nodup) :
    ((selectCandidates files).map ImageItem.id).Nodup := by
  unfold selectCandidates
  split
  · exact hnd
  · exact hnd.sublist ((List.filter_sublist files).map ImageItem.id)

/-- C2: a batch run's candidate set is exactly the `idle`/`error` items;
when that set is empty and the collection is not, the whole collection is
reprocessed; and on a normal run every `completed` entry of the collection
is left untouched, byte for byte, at its position. -/
theorem batch_selects_idle_and_error (env : CodecEnv) (files : List ImageItem)
    (options : ProcessingOptions) (hnd : (files.map ImageItem.id).Nodup) :
    (files.filter isCand ≠ [] →
        selectCandidates files = files.filter isCand ∧
        ∀ (k : ℕ) (f : ImageItem), files[k]? = some f → f.status = .completed →
          (handleProcessAll env files options)[k]? = some f) ∧
    (files.filter isCand = [] → files ≠ [] → selectCandidates files = files) := by
  constructor
  · intro hne
    have hsel : selectCandidates files = files.filter isCand := by
      unfold selectCandidates
      rw [if_neg]
      intro hcontra
      exact hne (List.length_eq_zero.mp hcontra.1)
    refine ⟨hsel, ?_⟩
    intro k f hk hst
    unfold handleProcessAll
    apply foldl_getElem?_other env options _ files k f hk
    intro d hd hEq
    have hdmem : d ∈ files := selectCandidates_subset files d hd
    have hfd : f = d :=
      List.inj_on_of_nodup_map hnd (mem_of_getElem?_eq_some hk) hdmem hEq
    rw [hsel] at hd
    have hdc : isCand d = true := List.of_mem_filter hd
    rw [← hfd] at hdc
    simp [isCand, hst] at hdc
  · intro hemp hnempty
    unfold selectCandidates
    rw [if_pos]
    exact ⟨by rw [hemp]; rfl, List.length_pos.mpr hnempty⟩

/-- Witness for C2: statuses `[idle, completed, error]` select the idle and
error items, and the completed entry is untouched by the run. -/
theorem batch_selects_idle_and_error_witness :
    (([⟨"a", "fa", "pa", 1, 2, 2, .idle, none, none, none, none, none, none⟩,
       ⟨"b", "fb", "pb", 1, 2, 2, .completed, some "ub", some .png, some 1, some 2,
         some 2, none⟩,
       ⟨"c", "fc", "pc", 1, 2, 2, .error, none, none, none, none, none,
         some "boom"⟩] : List ImageItem).map ImageItem.id).Nodup ∧
    ([⟨"a", "fa", "pa", 1, 2, 2, .idle, none, none, none, none, none, none⟩,
      ⟨"b", "fb", "pb", 1, 2, 2, .completed, some "ub", some .png, some 1, some 2,
        some 2, none⟩,
      ⟨"c", "fc", "pc", 1, 2, 2, .error, none, none, none, none, none,
        some "boom"⟩] : List ImageItem).filter isCand ≠ [] ∧
    selectCandidates
        [⟨"a", "fa", "pa", 1, 2, 2, .idle, none, none, none, none, none, none⟩,
         ⟨"b", "fb", "pb", 1, 2, 2, .completed, some "ub", some .png, some 1, some 2,
           some 2, none⟩,
         ⟨"c", "fc", "pc", 1, 2, 2, .error, none, none, none, none, none,
           some "boom"⟩] =
      [⟨"a", "fa", "pa", 1, 2, 2, .idle, none, none, none, none, none, none⟩,
       ⟨"c", "fc", "pc", 1, 2, 2, .error, none, none, none, none, none,
         some "boom"⟩] ∧
    (handleProcessAll ⟨fun _ => some ⟨2, 2⟩, true, fun _ _ _ _ => some ⟨1, "out"⟩⟩
        [⟨"a", "fa", "pa", 1, 2, 2, .idle, none, none, none, none, none, none⟩,
         ⟨"b", "fb", "pb", 1, 2, 2, .completed, some "ub", some .png, some 1, some 2,
           some 2, none⟩,
         ⟨"c", "fc", "pc", 1, 2, 2, .error, none, none, none, none, none,
           some "boom"⟩] ⟨.jpeg, 8/10, .original, 100, true⟩)[1]? =
      some ⟨"b", "fb", "pb", 1, 2, 2, .completed, some "ub", some .png, some 1, some 2,
        some 2, none⟩ := by
  have hnd :
      (([⟨"a", "fa", "pa", 1, 2, 2, .idle, none, none, none, none, none, none⟩,
         ⟨"b", "fb", "pb", 1, 2, 2, .completed, some "ub", some .png, some 1, some 2,
           some 2, none⟩,
         ⟨"c", "fc", "pc", 1, 2, 2, .error, none, none, none, none, none,
           some "boom"⟩] : List ImageItem).map ImageItem.id).Nodup := by
    decide
  have h := batch_selects_idle_and_error
    ⟨fun _ => some ⟨2, 2⟩, true, fun _ _ _ _ => some ⟨1, "out"⟩⟩
    [⟨"a", "fa", "pa", 1, 2, 2, .idle, none, none, none, none, none, none⟩,
     ⟨"b", "fb", "pb", 1, 2, 2, .completed, some "ub", some .png, some 1, some 2,
       some 2, none⟩,
     ⟨"c", "fc", "pc", 1, 2, 2, .error, none, none, none, none, none,
       some "boom"⟩] ⟨.jpeg, 8/10, .original, 100, true⟩ hnd
  refine ⟨hnd, by decide, ?_, ?_⟩
  · rw [(h.1 (by decide)).1]
    decide
  · exact (h.1 (by decide)).2 1 _ (by decide) (by decide)

/-- C5: no per-item fault escapes.  Every invocation of `processFile`
returns either a success record or a failure record, and a batch run drives
every candidate (under unique ids) to a terminal `completed` or `error`
status in the final collection — the batch never aborts because one item
failed, whatever the codec environment does. -/
theorem per_item_errors_isolated (env : CodecEnv) (files : List ImageItem)
    (options : ProcessingOptions) (hnd : (files.map ImageItem.id).Nodup) :
    (∀ (item : ImageItem) (opts2 : ProcessingOptions),
        (∃ u fm s w h, processFile env item opts2 = .success u fm s w h) ∨
        (∃ m, processFile env item opts2 = .failure m)) ∧
    (∀ c ∈ selectCandidates files,
        ∃ f ∈ handleProcessAll env files options,
          f.id = c.id ∧ (f.status = .completed ∨ f.status = .error)) := by
  constructor
  · intro item opts2
    cases hp : processFile env item opts2 with
    | success u fm s w h => exact Or.inl ⟨u, fm, s, w, h, rfl⟩
    | failure m => exact Or.inr ⟨m, rfl⟩
  · intro c hc
    exact foldl_candidates_terminal env options (selectCandidates files) files
      (selectCandidates_ids_nodup files hnd)
      (fun c' hc' => ⟨c', selectCandidates_subset files c' hc', rfl⟩) c hc

/-- Witness for C5: with a decoder that always fails, both items of a batch
still end in a terminal state and the run completes. -/
theorem per_item_errors_isolated_witness :
    (([⟨"a", "fa", "pa", 1, 2, 2, .idle, none, none, none, none, none, none⟩,
       ⟨"b", "fb", "pb", 1, 2, 2, .idle, none, none, none, none, none,
         none⟩] : List ImageItem).map ImageItem.id).Nodup ∧
    ⟨"a", "fa", "pa", 1, 2, 2, .idle, none, none, none, none, none, none⟩ ∈
      selectCandidates
        [⟨"a", "fa", "pa", 1, 2, 2, .idle, none, none, none, none, none, none⟩,
         ⟨"b", "fb", "pb", 1, 2, 2, .idle, none, none, none, none, none, none⟩] ∧
    ∃ f ∈ handleProcessAll ⟨fun _ => none, true, fun _ _ _ _ => none⟩
        [⟨"a", "fa", "pa", 1, 2, 2, .idle, none, none, none, none, none, none⟩,
         ⟨"b", "fb", "pb", 1, 2, 2, .idle, none, none, none, none, none, none⟩]
        ⟨.jpeg, 8/10, .original, 100, true⟩,
      f.id = "a" ∧ (f.status = .completed ∨ f.status = .error) :=
  ⟨by decide, by decide,
    (per_item_errors_isolated ⟨fun _ => none, true, fun _ _ _ _ => none⟩
        [⟨"a", "fa", "pa", 1, 2, 2, .idle, none, none, none, none, none, none⟩,
         ⟨"b", "fb", "pb", 1, 2, 2, .idle, none, none, none, none, none, none⟩]
        ⟨.jpeg, 8/10, .original, 100, true⟩ (by decide)).2
      ⟨"a", "fa", "pa", 1, 2, 2, .idle, none, none, none, none, none, none⟩
      (by decide)⟩

/-- C3 counterexample: re-running a `completed` item, the controller's
transition to `processing` clears the error field but leaves all five
success fields (`processedUrl`, `processedFormat`, `processedSize`,
`processedWidth`, `processedHeight`) populated. -/
theorem reentry_keeps_success_fields :
    (setProcessing
        [⟨"a", "fa", "pa", 10, 4, 3, .completed, some "old", some .jpeg, some 5, some 4,
          some 3, none⟩] "a").map
        (fun f => (f.status, f.processedUrl, f.processedFormat, f.processedSize,
          f.processedWidth, f.processedHeight, f.error)) =
      [(.processing, some "old", some .jpeg, some 5, some 4, some 3, none)] := by
  rfl

/-- C3 (amended): on re-entry to `processing` the Batch Controller clears
only the `error` field; the five success fields keep their previous values
(they are overwritten only by a later success merge), and every other field
of the item is also untouched. -/
theorem reentry_clears_only_error (itemId : String) (f : ImageItem)
    (h : f.id = itemId) :
    (setProcessingItem itemId f).status = .processing ∧
    (setProcessingItem itemId f).error = none ∧
    (setProcessingItem itemId f).processedUrl = f.processedUrl ∧
    (setProcessingItem itemId f).processedFormat = f.processedFormat ∧
    (setProcessingItem itemId f).processedSize = f.processedSize ∧
    (setProcessingItem itemId f).processedWidth = f.processedWidth ∧
    (setProcessingItem itemId f).processedHeight = f.processedHeight ∧
    (setProcessingItem itemId f).id = f.id ∧
    (setProcessingItem itemId f).file = f.file ∧
    (setProcessingItem itemId f).previewUrl = f.previewUrl ∧
    (setProcessingItem itemId f).originalSize = f.originalSize ∧
    (setProcessingItem itemId f).originalWidth = f.originalWidth ∧
    (setProcessingItem itemId f).originalHeight = f.originalHeight := by
  simp [setProcessingItem, h]

/-- Witness for C3 (amended) on a completed item with populated success
fields. -/
theorem reentry_clears_only_error_witness :
    (⟨"a", "fa", "pa", 10, 4, 3, .completed, some "old", some .jpeg, some 5, some 4,
        some 3, some "stale"⟩ : ImageItem).id = "a" ∧
    ((setProcessingItem "a"
        ⟨"a", "fa", "pa", 10, 4, 3, .completed, some "old", some .jpeg, some 5, some 4,
          some 3, some "stale"⟩).status = .processing ∧
      (setProcessingItem "a"
        ⟨"a", "fa", "pa", 10, 4, 3, .completed, some "old", some .jpeg, some 5, some 4,
          some 3, some "stale"⟩).error = none ∧
      (setProcessingItem "a"
        ⟨"a", "fa", "pa", 10, 4, 3, .completed, some "old", some .jpeg, some 5, some 4,
          some 3, some "stale"⟩).processedUrl = some "old" ∧
      (setProcessingItem "a"
        ⟨"a", "fa", "pa", 10, 4, 3, .completed, some "old", some .jpeg, some 5, some 4,
          some 3, some "stale"⟩).processedFormat = some .jpeg ∧
      (setProcessingItem "a"
        ⟨"a", "fa", "pa", 10, 4, 3, .completed, some "old", some .jpeg, some 5, some 4,
          some 3, some "stale"⟩).processedSize = some 5 ∧
      (setProcessingItem "a"
        ⟨"a", "fa", "pa", 10, 4, 3, .completed, some "old", some .jpeg, some 5, some 4,
          some 3, some "stale"⟩).processedWidth = some 4 ∧
      (setProcessingItem "a"
        ⟨"a", "fa", "pa", 10, 4, 3, .completed, some "old", some .jpeg, some 5, some 4,
          some 3, some "stale"⟩).processedHeight = some 3 ∧
      (setProcessingItem "a"
        ⟨"a", "fa", "pa", 10, 4, 3, .completed, some "old", some .jpeg, some 5, some 4,
          some 3, some "stale"⟩).id = "a" ∧
      (setProcessingItem "a"
        ⟨"a", "fa", "pa", 10, 4, 3, .completed, some "old", some .jpeg, some 5, some 4,
          some 3, some "stale"⟩).file = "fa" ∧
      (setProcessingItem "a"
        ⟨"a", "fa", "pa", 10, 4, 3, .completed, some "old", some .jpeg, some 5, some 4,
          some 3, some "stale"⟩).previewUrl = "pa" ∧
      (setProcessingItem "a"
        ⟨"a", "fa", "pa", 10, 4, 3, .completed, some "old", some .jpeg, some 5, some 4,
          some 3, some "stale"⟩).originalSize = 10 ∧
      (setProcessingItem "a"
        ⟨"a", "fa", "pa", 10, 4, 3, .completed, some "old", some .jpeg, some 5, some 4,
          some 3, some "stale"⟩).originalWidth = 4 ∧
      (setProcessingItem "a"
        ⟨"a", "fa", "pa", 10, 4, 3, .completed, some "old", some .jpeg, some 5, some 4,
          some 3, some "stale"⟩).originalHeight = 3) :=
  ⟨rfl, reentry_clears_only_error "a"
    ⟨"a", "fa", "pa", 10, 4, 3, .completed, some "old", some .jpeg, some 5, some 4,
      some 3, some "stale"⟩ rfl⟩

/-- C4 counterexample: with an encoding backend that returns a non-null,
zero-byte blob, `processFile` returns a success record with
`processedSize = 0` — the source's `if (!blob)` guard rejects only a null
result, not an empty one. -/
theorem zero_byte_blob_accepted :
    (⟨fun _ => some ⟨4, 3⟩, true, fun _ _ _ _ => some ⟨0, "u"⟩⟩ : CodecEnv).encode
        4 3 .jpeg (8/10) = some ⟨0, "u"⟩ ∧
    processFile ⟨fun _ => some ⟨4, 3⟩, true, fun _ _ _ _ => some ⟨0, "u"⟩⟩
        ⟨"a", "fa", "pa", 9, 4, 3, .idle, none, none, none, none, none, none⟩
        ⟨.jpeg, 8/10, .original, 100, true⟩ = .success "u" .jpeg 0 4 3 :=
  ⟨rfl, by decide⟩

/-- C4 (amended): when the item decodes and a canvas context is available,
a null `toBlob` result makes `processFile` return the
`Image encoding failed` failure record, while any non-null blob — including a
zero-byte one — yields a success record carrying the blob's size. -/
theorem encode_null_fails (env : CodecEnv) (item : ImageItem)
    (options : ProcessingOptions) (d : DecodedImage)
    (hd : env.decode item.previewUrl = some d) (hctx : env.hasContext = true) :
    (env.encode (resolveDimensions d.naturalWidth d.naturalHeight options).1
        (resolveDimensions d.naturalWidth d.naturalHeight options).2
        options.format options.quality = none →
      processFile env item options = .failure "Image encoding failed") ∧
    (∀ b : EncodedBlob,
      env.encode (resolveDimensions d.naturalWidth d.naturalHeight options).1
          (resolveDimensions d.naturalWidth d.naturalHeight options).2
          options.format options.quality = some b →
      processFile env item options =
        .success b.url options.format b.size
          (resolveDimensions d.naturalWidth d.naturalHeight options).1
          (resolveDimensions d.naturalWidth d.naturalHeight options).2) := by
  constructor
  · intro henc
    simp [processFile, hd, hctx, henc]
  · intro b henc
    simp [processFile, hd, hctx, henc]

/-- Witness for C4 (amended) with a backend whose `toBlob` yields null. -/
theorem encode_null_fails_witness :
    (⟨fun _ => some ⟨4, 3⟩, true, fun _ _ _ _ => none⟩ : CodecEnv).decode "pa" =
      some ⟨4, 3⟩ ∧
    (⟨fun _ => some ⟨4, 3⟩, true, fun _ _ _ _ => none⟩ : CodecEnv).hasContext = true ∧
    ((⟨fun _ => some ⟨4, 3⟩, true, fun _ _ _ _ => none⟩ : CodecEnv).encode
        (resolveDimensions 4 3 ⟨.jpeg, 8/10, .original, 100, true⟩).1
        (resolveDimensions 4 3 ⟨.jpeg, 8/10, .original, 100, true⟩).2 .jpeg (8/10) = none →
      processFile ⟨fun _ => some ⟨4, 3⟩, true, fun _ _ _ _ => none⟩
          ⟨"a", "fa", "pa", 9, 4, 3, .idle, none, none, none, none, none, none⟩
          ⟨.jpeg, 8/10, .original, 100, true⟩ = .failure "Image encoding failed") :=
  ⟨rfl, rfl,
    (encode_null_fails ⟨fun _ => some ⟨4, 3⟩, true, fun _ _ _ _ => none⟩
        ⟨"a", "fa", "pa", 9, 4, 3, .idle, none, none, none, none, none, none⟩
        ⟨.jpeg, 8/10, .original, 100, true⟩ ⟨4, 3⟩ rfl rfl).1⟩

/-- C8: if an item was removed from the collection before its result is
merged (no entry with its id remains), the merge step leaves the collection
unchanged — the removed id does not reappear — and the late result's object
URL is exactly what gets revoked (released); a failure result has no URL to
release. -/
theorem removed_item_result_discarded (prev : List ImageItem) (itemId : String)
    (result : ProcessResult) (h : ∀ g ∈ prev, g.id ≠ itemId) :
    (mergeResult prev itemId result).1 = prev ∧
    (∀ f ∈ (mergeResult prev itemId result).1, f.id ≠ itemId) ∧
    (mergeResult prev itemId result).2 = (mergedUrl result).toList := by
  have hany : prev.any (fun f => decide (f.id = itemId)) = false := by
    rw [List.any_eq_false]
    intro x hx
    simpa using h x hx
  unfold mergeResult
  rw [hany]
  exact ⟨rfl, h, rfl⟩

/-- Witness for C8: a late success result for a removed id "b" is dropped
and its object URL revoked. -/
theorem removed_item_result_discarded_witness :
    (∀ g ∈ [(⟨"a", "fa", "pa", 9, 4, 3, .idle, none, none, none, none, none,
        none⟩ : ImageItem)], g.id ≠ "b") ∧
    (mergeResult
        [⟨"a", "fa", "pa", 9, 4, 3, .idle, none, none, none, none, none, none⟩] "b"
        (.success "late" .webp 7 2 2)).1 =
      [⟨"a", "fa", "pa", 9, 4, 3, .idle, none, none, none, none, none, none⟩] ∧
    (∀ f ∈ (mergeResult
        [⟨"a", "fa", "pa", 9, 4, 3, .idle, none, none, none, none, none, none⟩] "b"
        (.success "late" .webp 7 2 2)).1, f.id ≠ "b") ∧
    (mergeResult
        [⟨"a", "fa", "pa", 9, 4, 3, .idle, none, none, none, none, none, none⟩] "b"
        (.success "late" .webp 7 2 2)).2 = ["late"] :=
  ⟨by decide,
    (removed_item_result_discarded
      [⟨"a", "fa", "pa", 9, 4, 3, .idle, none, none, none, none, none, none⟩] "b"
      (.success "late" .webp 7 2 2) (by decide)).1,
    (removed_item_result_discarded
      [⟨"a", "fa", "pa", 9, 4, 3, .idle, none, none, none, none, none, none⟩] "b"
      (.success "late" .webp 7 2 2) (by decide)).2.1,
    (removed_item_result_discarded
      [⟨"a", "fa", "pa", 9, 4, 3, .idle, none, none, none, none, none, none⟩] "b"
      (.success "late" .webp 7 2 2) (by decide)).2.2⟩

/-- C9: when the pipeline fails for an item, the controller's loop body
(transition to `processing`, then merge of the failure) turns its entry into
exactly the original record with only `status := error` and the message
installed — `file`, `previewUrl`, `originalSize`, `originalWidth`,
`originalHeight` (and even stale processed fields) are untouched — and the
resulting entry satisfies the `idle`-or-`error` candidate condition of the
next run. -/
theorem failed_item_keeps_originals (env : CodecEnv) (files : List ImageItem)
    (item : ImageItem) (options : ProcessingOptions) (k : ℕ) (f : ImageItem)
    (msg : String) (hpf : processFile env item options = .failure msg)
    (hk : files[k]? = some f) (hid : f.id = item.id) :
    (processOneItem env files item options)[k]? =
      some { f with status := .error, error := some msg } ∧
    isCand { f with status := .error, error := some msg } = true := by
  have hmem : setProcessingItem item.id f ∈ setProcessing files item.id :=
    List.mem_map_of_mem _ (mem_of_getElem?_eq_some hk)
  have hany :
      (setProcessing files item.id).any (fun g => decide (g.id = item.id)) = true := by
    rw [List.any_eq_true]
    refine ⟨_, hmem, ?_⟩
    rw [setProcessingItem_id]
    simp [hid]
  constructor
  · unfold processOneItem mergeResult
    rw [hpf, hany]
    simp only [if_true, List.getElem?_map, setProcessing, hk]
    simp [setProcessingItem, hid, mergeItem]
  · simp [isCand]

/-- The failing item and always-failing codec used by the C9 witness. -/
def retryItem : ImageItem :=
  ⟨"a", "fa", "pa", 9, 4, 3, .error, none, none, none, none, none, some "m0"⟩

/-- A codec environment whose decoder always rejects, for the C9 witness. -/
def failingEnv : CodecEnv := ⟨fun _ => none, true, fun _ _ _ _ => none⟩

/-- Witness for C9: a failing decode leaves the item's original fields in
place and the item retriable. -/
theorem failed_item_keeps_originals_witness :
    processFile failingEnv retryItem ⟨.jpeg, 8/10, .original, 100, true⟩ =
      .failure "Failed to load image" ∧
    ([retryItem])[0]? = some retryItem ∧
    ((processOneItem failingEnv [retryItem] retryItem
        ⟨.jpeg, 8/10, .original, 100, true⟩)[0]? =
      some { retryItem with status := .error, error := some "Failed to load image" } ∧
     isCand { retryItem with status := .error, error := some "Failed to load image" } =
       true) :=
  ⟨by decide, by decide,
    failed_item_keeps_originals failingEnv [retryItem] retryItem
      ⟨.jpeg, 8/10, .original, 100, true⟩ 0 retryItem
      "Failed to load image" (by decide) (by decide) rfl⟩

/-- C10: the outcome of `processFile` — in particular the resolved target
dimensions — depends only on the decoded image's natural width/height and
the options: two items whose previews decode to images of the same natural
size yield identical results under the same environment and options,
whatever their stored `originalWidth`/`originalHeight` fields say. -/
theorem result_depends_only_on_decoded_dims (env : CodecEnv)
    (options : ProcessingOptions) (i1 i2 : ImageItem) (d1 d2 : DecodedImage)
    (h1 : env.decode i1.previewUrl = some d1)
    (h2 : env.decode i2.previewUrl = some d2)
    (hw : d1.naturalWidth = d2.naturalWidth)
    (hh : d1.naturalHeight = d2.naturalHeight) :
    processFile env i1 options = processFile env i2 options := by
  have hdd : d1 = d2 := by
    cases d1
    cases d2
    simp_all
  subst hdd
  unfold processFile
  rw [h1, h2]

/-- Witness for C10: stored dimensions 0×0 (failed probe at ingestion) and
999×1 give the same result when the decoded natural size is the same. -/
theorem result_depends_only_on_decoded_dims_witness :
    (⟨fun _ => some ⟨7, 5⟩, true, fun _ _ _ _ => some ⟨3, "out"⟩⟩ : CodecEnv).decode
        "p1" = some ⟨7, 5⟩ ∧
    (⟨fun _ => some ⟨7, 5⟩, true, fun _ _ _ _ => some ⟨3, "out"⟩⟩ : CodecEnv).decode
        "p2" = some ⟨7, 5⟩ ∧
    processFile ⟨fun _ => some ⟨7, 5⟩, true, fun _ _ _ _ => some ⟨3, "out"⟩⟩
        ⟨"a", "fa", "p1", 9, 0, 0, .idle, none, none, none, none, none, none⟩
        ⟨.png, 1, .percentage, 50, true⟩ =
      processFile ⟨fun _ => some ⟨7, 5⟩, true, fun _ _ _ _ => some ⟨3, "out"⟩⟩
        ⟨"b", "fb", "p2", 9, 999, 1, .idle, none, none, none, none, none, none⟩
        ⟨.png, 1, .percentage, 50, true⟩ :=
  ⟨rfl, rfl,
    result_depends_only_on_decoded_dims
      ⟨fun _ => some ⟨7, 5⟩, true, fun _ _ _ _ => some ⟨3, "out"⟩⟩
      ⟨.png, 1, .percentage, 50, true⟩
      ⟨"a", "fa", "p1", 9, 0, 0, .idle, none, none, none, none, none, none⟩
      ⟨"b", "fb", "p2", 9, 999, 1, .idle, none, none, none, none, none, none⟩
      ⟨7, 5⟩ ⟨7, 5⟩ rfl rfl rfl rfl⟩
